import Mathlib

/-!
Shallow embedding of the opencode-memory memory-lifecycle engine
(`backend/app/store.py`, `backend/app/routes/memories.py`,
`backend/app/config.py`, `backend/app/extractor.py`).

Modelling conventions:
* The LanceDB table is a `List Row` (`Store`); `add` is append, `update`
  by id maps over rows, `delete` by id filters.
* The cosine metric of the vector engine, the embedding provider, the
  LLM extraction / contradiction-classification / condensation calls,
  UUID generation, `md5` and the wall clock are external black boxes
  (per the spec's scope) and are gathered into an `Oracle` record of
  pure functions.  `expDecay n` stands for `math.exp (-0.1 * n)`.
* Python floats are modelled as exact rationals `ℚ`; the cosmetic
  `round(score, 4)` applied to the float just before serialisation is
  not modelled.
* Top-k vector search is: filter by the prefilter predicate, pair each
  row with its distance, sort ascending by distance (stable insertion
  sort, mirroring a deterministic nearest-neighbour order), take k.
-/

unseal Rat.add Rat.sub Rat.mul Rat.inv

namespace OCMem

/-- JSON metadata object (`metadata_json`), with the three well-known
optional keys the engine reads (`type`, `date`, `condensed_from`). -/
structure MetadataJson where
  type : Option String
  date : Option String
  condensed_from : Option String
deriving Repr, DecidableEq

/-- One row of the `memories` table (schema in `models.py`). -/
structure Row where
  id : String
  memory : String
  user_id : String
  vector : List ℚ
  metadata_json : MetadataJson
  created_at : String
  updated_at : String
  hash : String
  chunk : String
  superseded_by : String
deriving Repr, DecidableEq

/-- An extracted fact `{memory, type, chunk}` as produced by
`extract_memories` / `parse_json_array` in `extractor.py`. -/
structure Fact where
  memory : String
  type : String
  chunk : String
deriving Repr, DecidableEq

/-- External black boxes consumed by the core, per the spec's scope:
the vector engine's cosine metric, the embedder, the three LLM calls,
uuid4 (an indexed id supply), md5, the wall clock, and the real
exponential `expDecay n = exp (-0.1 * n)` used by recency scoring. -/
structure Oracle where
  dist : List ℚ → List ℚ → ℚ
  embed : String → String → List ℚ
  extract : List String → Bool → Bool → List Fact
  detect : String → List (String × String) → List String
  condense : String → Option Fact
  md5 : String → String
  genId : Nat → String
  now : String
  expDecay : Nat → ℚ

/-- The vector table state. -/
abbrev Store := List Row

-- ── config.py constants ──

/-- Cosine distance below which two memories are duplicates (config.py). -/
def DEDUP_DISTANCE : ℚ := 12/100

/-- Wider dedup threshold for structural memories (config.py). -/
def STRUCTURAL_DEDUP_DISTANCE : ℚ := 25/100

/-- Memory types using the wider dedup threshold (config.py). -/
def STRUCTURAL_TYPES : List String :=
  ["project-brief", "architecture", "tech-context", "product-context", "project-config"]

/-- Contradiction-candidate distance (config.py). -/
def CONTRADICTION_CANDIDATE_DISTANCE : ℚ := 1/2

/-- Structural contradiction distance (config.py). -/
def STRUCTURAL_CONTRADICTION_DISTANCE : ℚ := 65/100

/-- Max candidates sent to the contradiction LLM call (config.py). -/
def CONTRADICTION_CANDIDATE_LIMIT : Nat := 15

/-- Types that skip contradiction detection (config.py). -/
def VERSIONING_SKIP_TYPES : List String := ["session-summary", "progress"]

/-- Max live session-summary rows per user (config.py). -/
def MAX_SESSION_SUMMARIES : Nat := 3

/-- Characters accepted by the `_SAFE_ID_RE` charset `[a-zA-Z0-9_.\-]`. -/
def safeIdChar (c : Char) : Bool :=
  c.isAlpha || c.isDigit || c = '_' || c = '.' || c = '-'

/-- Boolean reading of `validate_id` (config.py): `True` iff the value is
non-empty and fully matches `^[a-zA-Z0-9_.\-]+$`; the Python function
raises `ValueError` exactly when this is `false`. -/
def validIdB (value : String) : Bool :=
  !value.isEmpty && value.toList.all safeIdChar

-- ── Store primitives (the LanceDB black box per row-level contract) ──

/-- Row update keyed on id (`db.table.update(where="id = '<x>'")`). -/
def updateById (s : Store) (x : String) (f : Row → Row) : Store :=
  s.map (fun r => if r.id = x then f r else r)

/-- Row deletion keyed on id (`db.table.delete("id = '<x>'")`). -/
def deleteById (s : Store) (x : String) : Store :=
  s.filter (fun r => r.id ≠ x)

/-- Ascending-by-distance order on search hits. -/
def distLE (a b : Row × ℚ) : Prop := a.2 ≤ b.2

instance : DecidableRel distLE :=
  fun a b => inferInstanceAs (Decidable (a.2 ≤ b.2))

instance : IsTotal (Row × ℚ) distLE :=
  ⟨fun a b => le_total a.2 b.2⟩

instance : IsTrans (Row × ℚ) distLE :=
  ⟨fun _ _ _ h1 h2 => le_trans h1 h2⟩

/-- Cosine top-k search with a prefilter predicate
(`db.table.search(v).metric("cosine").where(pred, prefilter=True).limit(k)`):
filter, pair each row with its distance to `v`, order by distance, take k. -/
def searchRows (o : Oracle) (s : Store) (v : List ℚ) (pred : Row → Bool)
    (k : Nat) : List (Row × ℚ) :=
  (((s.filter pred).map (fun r => (r, o.dist v r.vector))).insertionSort distLE).take k

-- ── store.py: Deduplication ──

/-- Embedding of `find_duplicate` (store.py lines 35-60): top-1 cosine
search restricted to `user_id`; return the hit iff its distance is within
`distance_threshold`.  An invalid `user_id` (the `validate_id` raise) or
an empty table yields `none` via the catch-all handler. -/
def find_duplicate (o : Oracle) (s : Store) (user_id : String)
    (vector : List ℚ) (distance_threshold : ℚ) : Option Row :=
  if validIdB user_id = false then none
  else if s.length = 0 then none
  else
    match searchRows o s vector (fun r => r.user_id == user_id) 1 with
    | [] => none
    | (r, d) :: _ => if d ≤ distance_threshold then some r else none

-- ── store.py: Relational versioning ──

/-- Embedding of `find_contradiction_candidates` (store.py lines 66-105):
same-user live rows other than the new id, top `limit` by distance,
kept when within the (type-dependent) contradiction radius. -/
def find_contradiction_candidates (o : Oracle) (s : Store) (user_id : String)
    (vector : List ℚ) (new_id : String) (memory_type : String)
    (limit : Nat) : List Row :=
  let max_distance :=
    if memory_type ∈ STRUCTURAL_TYPES then STRUCTURAL_CONTRADICTION_DISTANCE
    else CONTRADICTION_CANDIDATE_DISTANCE
  if validIdB user_id = false || validIdB new_id = false then []
  else if s.length = 0 then []
  else
    ((searchRows o s vector
        (fun r => r.user_id == user_id && r.id != new_id && r.superseded_by == "")
        limit).filter
      (fun p => p.2 ≤ max_distance)).map Prod.fst

/-- Embedding of `mark_superseded` (store.py lines 108-118): set
`superseded_by` of every row whose id is `old_id` to `new_id` and bump
`updated_at` (modelled by the oracle clock `o.now`). -/
def mark_superseded (now : String) (s : Store) (old_id new_id : String) : Store :=
  updateById s old_id (fun r => { r with superseded_by := new_id, updated_at := now })

/-- Embedding of `detect_contradictions` (extractor.py lines 395-431): empty
candidate list short-circuits; otherwise the LLM answer is parsed into the
list of its non-empty string items, with no other filtering. -/
def detect_contradictions (o : Oracle) (new_memory : String)
    (candidates : List (String × String)) : List String :=
  if candidates.isEmpty then []
  else (o.detect new_memory candidates).filter (fun i => i ≠ "")

/-- Embedding of `check_and_supersede` (store.py lines 121-149): skip the
types with their own lifecycle, find candidates, ask the LLM, then mark
every returned id — the returned ids are not checked against the
candidate set.  Returns the new store and the id list. -/
def check_and_supersede (o : Oracle) (s : Store) (user_id new_memory : String)
    (vector : List ℚ) (new_id memory_type : String) : Store × List String :=
  if memory_type ∈ VERSIONING_SKIP_TYPES then (s, [])
  else
    let candidates :=
      find_contradiction_candidates o s user_id vector new_id memory_type
        CONTRADICTION_CANDIDATE_LIMIT
    if candidates.isEmpty then (s, [])
    else
      let superseded_ids :=
        detect_contradictions o new_memory (candidates.map (fun c => (c.id, c.memory)))
      (superseded_ids.foldl (fun st sid => mark_superseded o.now st sid new_id) s,
       superseded_ids)

-- ── store.py: Type queries ──

/-- Lexicographic code-point comparison of character lists: the order in
which Python compares the `created_at` strings. -/
def charsLe : List Char → List Char → Bool
  | [], _ => true
  | _ :: _, [] => false
  | a :: as, b :: bs => if a < b then true else if b < a then false else charsLe as bs

/-- Python's `<=` on strings (lexicographic by code point). -/
def strLe (a b : String) : Bool := charsLe a.toList b.toList

/-- Ascending order on `created_at` used by the type queries. -/
def createdLE (a b : Row) : Prop := strLe a.created_at b.created_at = true

instance : DecidableRel createdLE :=
  fun a b => inferInstanceAs (Decidable (strLe a.created_at b.created_at = true))

/-- Embedding of `get_memories_by_types` (store.py lines 160-194): live
rows of the user whose metadata type is one of `memory_types`, sorted by
`created_at` ascending (stable, like Python's sort). -/
def get_memories_by_types (s : Store) (user_id : String)
    (memory_types : List String) : List Row :=
  if s.length = 0 then []
  else
    (s.filter (fun r =>
        r.user_id == user_id
        && (match r.metadata_json.type with
            | some t => memory_types.contains t
            | none => false)
        && r.superseded_by == "")).insertionSort createdLE

/-- Embedding of `get_memories_by_type` (store.py lines 155-157). -/
def get_memories_by_type (s : Store) (user_id : String)
    (memory_type : String) : List Row :=
  get_memories_by_types s user_id [memory_type]

-- ── store.py: Aging rules ──

/-- Embedding of `_age_progress` (store.py lines 219-226): delete every
live progress row of the user other than the new one. -/
def age_progress (s : Store) (user_id new_id : String) : Store :=
  ((get_memories_by_type s user_id "progress").filter
      (fun r => r.id ≠ new_id)).foldl
    (fun st r => deleteById st r.id) s

/-- Embedding of `_age_session_summaries` (store.py lines 229-266): when the
live session-summary count exceeds the cap, condense the oldest into a new
learned-pattern row (when the LLM condensation yields something), then
delete the oldest row — the delete is outside the `if condensed:` guard and
runs regardless of the condensation outcome.  `fresh` is the uuid4 the pass
would mint for the condensed row. -/
def age_session_summaries (o : Oracle) (fresh : String) (s : Store)
    (user_id : String) : Store :=
  let existing := get_memories_by_type s user_id "session-summary"
  if existing.length ≤ MAX_SESSION_SUMMARIES then s
  else
    match existing with
    | [] => s
    | oldest :: _ =>
      let s1 :=
        match o.condense oldest.memory with
        | some condensed =>
            s ++ [{ id := fresh
                    memory := condensed.memory
                    user_id := user_id
                    vector := o.embed condensed.memory "document"
                    metadata_json :=
                      { type := some "learned-pattern"
                        date := none
                        condensed_from := some oldest.id }
                    created_at := o.now
                    updated_at := o.now
                    hash := o.md5 condensed.memory
                    chunk := ""
                    superseded_by := "" }]
        | none => s
      deleteById s1 oldest.id

/-- Embedding of `apply_aging_rules` (store.py lines 200-216). -/
def apply_aging_rules (o : Oracle) (fresh : String) (s : Store)
    (user_id memory_type new_id : String) : Store :=
  if memory_type = "" then s
  else if memory_type = "progress" then age_progress s user_id new_id
  else if memory_type = "session-summary" then age_session_summaries o fresh s user_id
  else s

-- ── routes/memories.py: ingestion (POST /memories) ──

/-- Pipeline stages executed for one fact, recorded in order of execution. -/
inductive Step where
  | embed
  | dedup
  | insertRow
  | updateRow
  | ager
  | versioner
deriving Repr, DecidableEq

/-- Ingestion event reported per fact. -/
inductive Event where
  | ADD
  | UPDATE
deriving Repr, DecidableEq

/-- One entry of the ingestion response `results` list. -/
structure ResultEntry where
  id : String
  memory : String
  event : Event
deriving Repr, DecidableEq

/-- Resolution `fact.get("type") or base_metadata.get("type") or ""`
(routes/memories.py line 66): falsy (empty) strings fall through. -/
def resolveType (factType : String) (base : MetadataJson) : String :=
  if factType ≠ "" then factType
  else match base.type with
       | some t => t
       | none => ""

/-- Metadata written for a fact
(`{**base_metadata, **({"type": fact_type} if fact_type else {})}`). -/
def ingestMeta (base : MetadataJson) (factType : String) : MetadataJson :=
  if factType ≠ "" then { base with type := some factType } else base

/-- Dedup threshold selection (routes/memories.py line 74). -/
def dedupThreshold (factType : String) : ℚ :=
  if factType ∈ STRUCTURAL_TYPES then STRUCTURAL_DEDUP_DISTANCE else DEDUP_DISTANCE

/-- Outcome of processing one fact: new store, id-supply cursor, response
entry, and the executed pipeline stages in order. -/
structure FactOutcome where
  store : Store
  counter : Nat
  entry : ResultEntry
  steps : List Step
deriving Repr, DecidableEq

/-- Embedding of the per-fact body of the `for fact in facts:` loop of
`add_memory` (routes/memories.py lines 64-118): embed, dedup, then either
UPDATE in place, or INSERT followed by `apply_aging_rules` (when the type
is non-empty) and then `check_and_supersede` — the aging call at line 108
precedes the versioning call at line 111.  `n` indexes the uuid4 supply:
the inserted row takes `o.genId n` and a condensation inside the aging
pass would take `o.genId (n+1)`. -/
def processFact (o : Oracle) (user_id : String) (base : MetadataJson)
    (now : String) (s : Store) (n : Nat) (fact : Fact) : FactOutcome :=
  let fact_text := fact.memory
  let fact_type := resolveType fact.type base
  let fact_chunk := fact.chunk
  let metadata := ingestMeta base fact_type
  let fact_hash := o.md5 fact_text
  let vector := o.embed fact_text "document"
  match find_duplicate o s user_id vector (dedupThreshold fact_type) with
  | some dup =>
      { store := updateById s dup.id (fun r =>
          { r with
            memory := fact_text
            updated_at := now
            hash := fact_hash
            metadata_json := metadata
            chunk := fact_chunk })
        counter := n
        entry := { id := dup.id, memory := fact_text, event := Event.UPDATE }
        steps := [Step.embed, Step.dedup, Step.updateRow] }
  | none =>
      let mem_id := o.genId n
      let s1 := s ++ [{ id := mem_id
                        memory := fact_text
                        user_id := user_id
                        vector := vector
                        metadata_json := metadata
                        created_at := now
                        updated_at := now
                        hash := fact_hash
                        chunk := fact_chunk
                        superseded_by := "" }]
      let agerRan := fact_type ≠ ""
      let s2 :=
        if agerRan then apply_aging_rules o (o.genId (n+1)) s1 user_id fact_type mem_id
        else s1
      let s3 := (check_and_supersede o s2 user_id fact_text vector mem_id fact_type).1
      { store := s3
        counter := n + 2
        entry := { id := mem_id, memory := fact_text, event := Event.ADD }
        steps := [Step.embed, Step.dedup, Step.insertRow]
                 ++ (if agerRan then [Step.ager] else [])
                 ++ [Step.versioner] }

/-- Request body of `POST /memories` (models.py `AddMemoryRequest`); the
messages are abstracted to their flattened lines. -/
structure AddMemoryRequest where
  messages : List String
  user_id : String
  metadata : Option MetadataJson
  summary_mode : Bool
  init_mode : Bool

/-- Response of `POST /memories` together with the resulting store state
and the per-fact pipeline traces. -/
structure AddResponse where
  status : Nat
  results : List ResultEntry
  store : Store
  traces : List (List Step)
deriving Repr, DecidableEq

/-- Loop state threaded through the facts of one ingestion request. -/
structure IngestAcc where
  store : Store
  counter : Nat
  results : List ResultEntry
  traces : List (List Step)

/-- Embedding of `add_memory` (routes/memories.py lines 41-124):
`validate_id` runs first inside the `try:`; its `ValueError` is caught by
the blanket `except Exception` which re-raises as HTTP 500, before any
store access.  Otherwise the extracted facts are processed serially with a
single request timestamp `o.now`. -/
def add_memory (o : Oracle) (s : Store) (req : AddMemoryRequest) : AddResponse :=
  if validIdB req.user_id = false then
    { status := 500, results := [], store := s, traces := [] }
  else
    let facts := o.extract req.messages req.summary_mode req.init_mode
    let base := req.metadata.getD { type := none, date := none, condensed_from := none }
    let fin := facts.foldl
      (fun (acc : IngestAcc) fact =>
        let out := processFact o req.user_id base o.now acc.store acc.counter fact
        { store := out.store
          counter := out.counter
          results := acc.results ++ [out.entry]
          traces := acc.traces ++ [out.steps] })
      { store := s, counter := 0, results := [], traces := [] }
    { status := 200, results := fin.results, store := fin.store, traces := fin.traces }

-- ── routes/memories.py: search (POST /memories/search) ──

/-- Value of an ASCII digit character, `none` otherwise. -/
def digitVal (c : Char) : Option Nat :=
  if c.isDigit then some (c.toNat - 48) else none

/-- Base-10 value of an all-digit character list (`none` on a non-digit). -/
def parseDigits (cs : List Char) : Option Nat :=
  cs.foldl
    (fun acc c =>
      match acc, digitVal c with
      | some n, some d => some (n * 10 + d)
      | _, _ => none)
    (some 0)

/-- Gregorian leap-year test. -/
def isLeap (y : Nat) : Bool :=
  (y % 4 = 0 && y % 100 ≠ 0) || y % 400 = 0

/-- Number of days in month `m` of year `y`. -/
def daysInMonth (y m : Nat) : Nat :=
  if m = 2 then (if isLeap y then 29 else 28)
  else if m = 4 || m = 6 || m = 9 || m = 11 then 30
  else 31

/-- Days in the complete years before year `y` (proleptic Gregorian). -/
def daysBeforeYear (y : Nat) : Nat :=
  365 * (y - 1) + (y - 1) / 4 + (y - 1) / 400 - (y - 1) / 100

/-- Days in the complete months before month `m` of year `y`. -/
def daysBeforeMonth (y m : Nat) : Nat :=
  (List.range (m - 1)).foldl (fun acc i => acc + daysInMonth y (i + 1)) 0

/-- Proleptic-Gregorian ordinal of a civil date, as in Python's
`date.toordinal` (0001-01-01 has ordinal 1).  A date object is modelled
by its ordinal: the two are in order-preserving bijection, and
`(a - b).days` is ordinal subtraction. -/
def toOrdinal (y m d : Nat) : Nat :=
  daysBeforeYear y + daysBeforeMonth y m + d

/-- Embedding of `date.fromisoformat` on the strict `YYYY-MM-DD` form the
system reads and writes: ten characters, dashes at positions 4 and 7,
digit fields, and a valid calendar date.  Returns the date's ordinal. -/
def parseISODate (s : String) : Option Nat :=
  match s.toList with
  | [y3, y2, y1, y0, h1, m1, m0, h2, d1, d0] =>
    if h1 = '-' && h2 = '-' then
      match parseDigits [y3, y2, y1, y0], parseDigits [m1, m0], parseDigits [d1, d0] with
      | some y, some m, some d =>
        if 1 ≤ y && 1 ≤ m && m ≤ 12 && 1 ≤ d && d ≤ daysInMonth y m then
          some (toOrdinal y m d)
        else none
      | _, _, _ => none
    else none
  | _ => none

/-- Embedding of `_extract_date` (routes/memories.py lines 179-188):
`metadata_json["date"]` when truthy, else `created_at[:10]`; parse the
first ten characters as an ISO date, `none` on failure. -/
def extract_date (r : Row) : Option Nat :=
  let raw :=
    match r.metadata_json.date with
    | some ds => if ds = "" then r.created_at.take 10 else ds
    | none => r.created_at.take 10
  if raw = "" then none else parseISODate (raw.take 10)

/-- Embedding of `_recency_score` (routes/memories.py lines 191-196):
`exp(-0.1 * max(0, (max_date - d).days))` via the oracle exponential;
`0.0` for a missing date.  `Nat` subtraction of ordinals is exactly
`max 0 (max_date - d).days`. -/
def recency_score (o : Oracle) (d : Option Nat) (max_date : Nat) : ℚ :=
  match d with
  | none => 0
  | some dv => o.expDecay (max_date - dv)

/-- Request body of `POST /memories/search` (models.py
`SearchMemoryRequest`). -/
structure SearchMemoryRequest where
  query : String
  user_id : String
  limit : Option Nat
  threshold : Option ℚ
  recency_weight : Option ℚ

/-- One item of the search response (`score` is the exact rational the
float pipeline computes before the 4-decimal display rounding; `date` is
the ordinal of the emitted ISO date string). -/
structure SearchItem where
  id : String
  memory : String
  chunk : String
  score : ℚ
  metadata : MetadataJson
  created_at : String
  date : Option Nat
deriving Repr, DecidableEq

/-- Search response together with the HTTP status. -/
structure SearchResponse where
  status : Nat
  results : List SearchItem
deriving Repr, DecidableEq

/-- Candidate rows of one search: top-`limit` cosine hits prefiltered to
`user_id = <requester> AND superseded_by = ''`
(routes/memories.py lines 214-223). -/
def searchCandidates (o : Oracle) (s : Store) (req : SearchMemoryRequest) : List (Row × ℚ) :=
  searchRows o s (o.embed req.query "query")
    (fun r => r.user_id == req.user_id && r.superseded_by == "")
    (req.limit.getD 5)

/-- Maximum parseable session date among the candidates
(`max(dates) if dates else None`). -/
def candMaxDate (cands : List (Row × ℚ)) : Option Nat :=
  (cands.filterMap (fun p => extract_date p.1)).max?

/-- Blended score of one candidate (routes/memories.py lines 246-258):
pure semantic `max(0, 1 - distance)` when `recency_weight` is zero or no
candidate has a parseable date, else
`(1-w) * semantic + w * recency`. -/
def blendScore (o : Oracle) (w : ℚ) (maxd : Option Nat) (p : Row × ℚ) : ℚ :=
  let semantic := max 0 (1 - p.2)
  if 0 < w then
    match maxd with
    | some md => (1 - w) * semantic + w * recency_score o (extract_date p.1) md
    | none => semantic
  else semantic

/-- Descending order on scored candidates (`sorted(..., reverse=True)`). -/
def scoreGE (a b : (Row × ℚ) × ℚ) : Prop := b.2 ≤ a.2

instance : DecidableRel scoreGE :=
  fun a b => inferInstanceAs (Decidable (b.2 ≤ a.2))

/-- Response item built from a scored candidate. -/
def mkSearchItem (p : (Row × ℚ) × ℚ) : SearchItem :=
  { id := p.1.1.id
    memory := p.1.1.memory
    chunk := p.1.1.chunk
    score := p.2
    metadata := p.1.1.metadata_json
    created_at := p.1.1.created_at
    date := extract_date p.1.1 }

/-- Embedding of `search_memories` (routes/memories.py lines 202-285):
validate the user id (a failure becomes HTTP 500 via the blanket
handler), embed the query, run the prefiltered top-k search, score each
candidate, drop scores below the threshold (default 0.3), and sort
descending by score. -/
def search_memories (o : Oracle) (s : Store) (req : SearchMemoryRequest) : SearchResponse :=
  if validIdB req.user_id = false then { status := 500, results := [] }
  else if s.length = 0 then { status := 200, results := [] }
  else
    let cands := searchCandidates o s req
    let threshold := req.threshold.getD (3/10)
    let w := req.recency_weight.getD 0
    let maxd := candMaxDate cands
    let scored := cands.map (fun p => (p, blendScore o w maxd p))
    let kept := scored.filter (fun q => threshold ≤ q.2)
    { status := 200
      results := (kept.insertionSort scoreGE).map mkSearchItem }

-- ── Concrete fixtures for witnesses and counterexamples ──

/-- Empty metadata object. -/
def noMeta : MetadataJson := { type := none, date := none, condensed_from := none }

/-- Oracle whose extraction yields one session-summary fact, whose
vector metric puts everything far away, and whose condensation fails. -/
def oC1 : Oracle :=
  { dist := fun _ _ => 1
    embed := fun _ _ => [9]
    extract := fun _ _ _ => [{ memory := "new summary", type := "session-summary", chunk := "ck" }]
    detect := fun _ _ => []
    condense := fun _ => none
    md5 := fun s => "h-" ++ s
    genId := fun n => "gen" ++ toString n
    now := "2026-02-02T00:00:00+00:00"
    expDecay := fun n => 1 / ((n : ℚ) + 1) }

/-- A live session-summary row created on 2026-01-0`i`. -/
def summaryRow (i : Nat) : Row :=
  { id := "s" ++ toString i
    memory := "summary " ++ toString i
    user_id := "u1"
    vector := [2]
    metadata_json := { type := some "session-summary", date := none, condensed_from := none }
    created_at := "2026-01-0" ++ toString i ++ "T00:00:00+00:00"
    updated_at := "2026-01-0" ++ toString i ++ "T00:00:00+00:00"
    hash := "h"
    chunk := ""
    superseded_by := "" }

/-- Store holding exactly the cap of live session summaries. -/
def sC1 : Store := [summaryRow 1, summaryRow 2, summaryRow 3]

/-- Store holding one session summary over the cap. -/
def sC1big : Store := [summaryRow 1, summaryRow 2, summaryRow 3, summaryRow 4]

/-- Summary-mode ingestion request for user `u1`. -/
def reqC1 : AddMemoryRequest :=
  { messages := ["m"], user_id := "u1", metadata := none
    summary_mode := true, init_mode := false }

/-- Live preference row at distance 0 from the query vector `[1]`. -/
def rowN1 : Row :=
  { id := "A"
    memory := "uses npm"
    user_id := "u1"
    vector := [1]
    metadata_json := { type := some "preference", date := none, condensed_from := none }
    created_at := "2026-01-01T00:00:00+00:00"
    updated_at := "2026-01-01T00:00:00+00:00"
    hash := "h"
    chunk := ""
    superseded_by := "" }

/-- Live preference row at distance 1 from the query vector `[1]`. -/
def rowN2 : Row :=
  { id := "B"
    memory := "uses vite"
    user_id := "u1"
    vector := [3]
    metadata_json := { type := some "preference", date := none, condensed_from := none }
    created_at := "2026-01-02T00:00:00+00:00"
    updated_at := "2026-01-02T00:00:00+00:00"
    hash := "h"
    chunk := ""
    superseded_by := "" }

/-- Two-row store for the dedup / versioning scenarios. -/
def sDD : Store := [rowN1, rowN2]

/-- Oracle whose metric is 0 exactly on vector `[1]` (so `rowN1` is near
and `rowN2` is far) and whose supersession classifier answers the
non-candidate id `B`. -/
def oDD : Oracle :=
  { dist := fun _ w => if w = [1] then 0 else 1
    embed := fun _ _ => [1]
    extract := fun _ _ _ => [{ memory := "new fact", type := "preference", chunk := "ck" }]
    detect := fun _ _ => ["B"]
    condense := fun _ => none
    md5 := fun s => "h-" ++ s
    genId := fun n => "gen" ++ toString n
    now := "2026-02-02T00:00:00+00:00"
    expDecay := fun n => 1 / ((n : ℚ) + 1) }

/-- Oracle extracting one preference fact with everything far away. -/
def oC3 : Oracle :=
  { dist := fun _ _ => 1
    embed := fun _ _ => [9]
    extract := fun _ _ _ => [{ memory := "prefers tabs", type := "preference", chunk := "ck" }]
    detect := fun _ _ => []
    condense := fun _ => none
    md5 := fun s => "h-" ++ s
    genId := fun n => "gen" ++ toString n
    now := "2026-02-02T00:00:00+00:00"
    expDecay := fun n => 1 / ((n : ℚ) + 1) }

/-- The single fact extracted by `oC3`. -/
def factC3 : Fact := { memory := "prefers tabs", type := "preference", chunk := "ck" }

/-- Conversation-mode ingestion request for user `u1`. -/
def reqC3 : AddMemoryRequest :=
  { messages := ["m"], user_id := "u1", metadata := none
    summary_mode := false, init_mode := false }

/-- Ingestion request whose `user_id` contains a space. -/
def reqC4 : AddMemoryRequest :=
  { messages := ["m"], user_id := "u 1", metadata := none
    summary_mode := false, init_mode := false }

/-- The fact driving the C6 in-place UPDATE scenario. -/
def factC6 : Fact := { memory := "updated text", type := "preference", chunk := "ck2" }

/-- Search request with recency blending (`w = 1/2`). -/
def reqC7 : SearchMemoryRequest :=
  { query := "q", user_id := "u1", limit := some 5
    threshold := some 0, recency_weight := some (1/2) }

/-- First result returned for `reqC7` on `sC1` under `oC1`: pure-recency
score `1/2 * expDecay 0 = 1/2` for the newest summary. -/
def itemC7 : SearchItem :=
  { id := "s3"
    memory := "summary 3"
    chunk := ""
    score := 1/2
    metadata := { type := some "session-summary", date := none, condensed_from := none }
    created_at := "2026-01-03T00:00:00+00:00"
    date := some 739619 }

/-- A live progress row created on 2026-01-0`i`. -/
def progressRow (i : Nat) : Row :=
  { id := "p" ++ toString i
    memory := "progress " ++ toString i
    user_id := "u1"
    vector := [2]
    metadata_json := { type := some "progress", date := none, condensed_from := none }
    created_at := "2026-01-0" ++ toString i ++ "T00:00:00+00:00"
    updated_at := "2026-01-0" ++ toString i ++ "T00:00:00+00:00"
    hash := "h"
    chunk := ""
    superseded_by := "" }

/-- Store with three live progress rows; `p3` is the newly inserted one. -/
def sC8 : Store := [progressRow 1, progressRow 2, progressRow 3]

/-- Search request with pure semantic scoring (`w = 0`). -/
def reqC9 : SearchMemoryRequest :=
  { query := "q", user_id := "u1", limit := some 5
    threshold := some 0, recency_weight := some 0 }

/-- First result returned for `reqC9` on `sC1` under `oC1`. -/
def itemC9 : SearchItem :=
  { id := "s1"
    memory := "summary 1"
    chunk := ""
    score := 0
    metadata := { type := some "session-summary", date := none, condensed_from := none }
    created_at := "2026-01-01T00:00:00+00:00"
    date := some 739617 }

/-- A retired row (`superseded_by = "x9"`) at distance 0 from `[1]`. -/
def rowR : Row :=
  { id := "r1"
    memory := "old text"
    user_id := "u1"
    vector := [1]
    metadata_json := { type := some "preference", date := none, condensed_from := none }
    created_at := "2026-01-01T00:00:00+00:00"
    updated_at := "2026-01-01T00:00:00+00:00"
    hash := "h"
    chunk := "c0"
    superseded_by := "x9" }

/-- Store whose only row is retired. -/
def sC10 : Store := [rowR]

/-- Oracle extracting one preference fact embedded at `[1]`, which the
metric puts at distance 0 from `rowR`. -/
def oC10 : Oracle :=
  { dist := fun _ w => if w = [1] then 0 else 1
    embed := fun _ _ => [1]
    extract := fun _ _ _ => [{ memory := "new text", type := "preference", chunk := "ck" }]
    detect := fun _ _ => []
    condense := fun _ => none
    md5 := fun s => "h-" ++ s
    genId := fun n => "gen" ++ toString n
    now := "2026-02-02T00:00:00+00:00"
    expDecay := fun n => 1 / ((n : ℚ) + 1) }

/-- Ingestion request for the C10 scenario. -/
def reqC10 : AddMemoryRequest :=
  { messages := ["m"], user_id := "u1", metadata := none
    summary_mode := false, init_mode := false }

/-- Search request issued after the C10 ingestion. -/
def reqC10s : SearchMemoryRequest :=
  { query := "new text", user_id := "u1", limit := some 5
    threshold := some 0, recency_weight := some 0 }

-- ── Shared lemmas about the embedded primitives ──

/-- Every hit of a prefiltered search is a stored row satisfying the
prefilter, paired with its distance. -/
theorem searchRows_mem {o : Oracle} {s : Store} {v : List ℚ} {pred : Row → Bool}
    {k : Nat} {p : Row × ℚ} (hp : p ∈ searchRows o s v pred k) :
    p.1 ∈ s ∧ pred p.1 = true ∧ p.2 = o.dist v p.1.vector := by
  have h1 : p ∈ ((s.filter pred).map (fun r => (r, o.dist v r.vector))).insertionSort distLE :=
    (List.take_sublist _ _).mem hp
  have h2 := (List.mem_insertionSort distLE).mp h1
  rcases List.mem_map.mp h2 with ⟨r, hr, hrp⟩
  rcases List.mem_filter.mp hr with ⟨hrs, hrpred⟩
  refine ⟨?_, ?_, ?_⟩
  · rw [← hrp]; exact hrs
  · rw [← hrp]; exact hrpred
  · rw [← hrp]

/-- The first hit of a prefiltered search has minimal distance among all
stored rows satisfying the prefilter. -/
theorem searchRows_head_min {o : Oracle} {s : Store} {v : List ℚ} {pred : Row → Bool}
    {k : Nat} {p : Row × ℚ} {rest : List (Row × ℚ)}
    (h : searchRows o s v pred k = p :: rest) :
    ∀ r ∈ s, pred r = true → p.2 ≤ o.dist v r.vector := by
  intro r hr hpred
  set l := (s.filter pred).map (fun r => (r, o.dist v r.vector)) with hl
  have hsorted : (l.insertionSort distLE).Sorted distLE := List.sorted_insertionSort distLE l
  have hmem : (r, o.dist v r.vector) ∈ l := by
    exact List.mem_map.mpr ⟨r, List.mem_filter.mpr ⟨hr, hpred⟩, rfl⟩
  have hmem2 : (r, o.dist v r.vector) ∈ l.insertionSort distLE :=
    (List.mem_insertionSort distLE).mpr hmem
  obtain ⟨q, t, hqt⟩ : ∃ q t, l.insertionSort distLE = q :: t := by
    cases hs : l.insertionSort distLE with
    | nil => rw [hs] at hmem2; cases hmem2
    | cons q t => exact ⟨q, t, rfl⟩
  have hq : q = p := by
    have h2 := h
    rw [searchRows, ← hl, hqt] at h2
    cases k with
    | zero => simp [List.take] at h2
    | succ k =>
      rw [List.take_succ_cons] at h2
      exact (List.cons_eq_cons.mp h2).1
  rw [hqt] at hsorted hmem2
  rcases List.mem_cons.mp hmem2 with heq | hmem3
  · rw [hq] at heq
    exact le_of_eq (congrArg Prod.snd heq.symm)
  · have h3 := List.rel_of_sorted_cons hsorted _ hmem3
    rw [hq] at h3
    exact h3

/-- An empty search answer (with a positive limit) means no stored row
satisfies the prefilter. -/
theorem searchRows_nil {o : Oracle} {s : Store} {v : List ℚ} {pred : Row → Bool}
    {k : Nat} (hk : 0 < k) (h : searchRows o s v pred k = []) :
    ∀ r ∈ s, pred r = false := by
  intro r hr
  by_contra hne
  have hpred : pred r = true := by
    cases hp : pred r
    · exact absurd hp hne
    · rfl
  have hmem : (r, o.dist v r.vector) ∈
      ((s.filter pred).map (fun r => (r, o.dist v r.vector))).insertionSort distLE :=
    (List.mem_insertionSort distLE).mpr
      (List.mem_map.mpr ⟨r, List.mem_filter.mpr ⟨hr, hpred⟩, rfl⟩)
  cases hs : ((s.filter pred).map (fun r => (r, o.dist v r.vector))).insertionSort distLE with
  | nil => rw [hs] at hmem; cases hmem
  | cons q t =>
    rw [searchRows, hs] at h
    cases k with
    | zero => cases hk
    | succ k => simp [List.take] at h

/-- Folding row deletions over a list removes exactly the rows whose id
appears in the list. -/
theorem foldl_deleteById (L : List Row) (s : Store) :
    L.foldl (fun st r => deleteById st r.id) s
      = s.filter (fun r2 => L.all (fun q => decide (r2.id ≠ q.id))) := by
  induction L generalizing s with
  | nil => simp
  | cons q L ih =>
    rw [List.foldl_cons, ih, deleteById, List.filter_filter]
    apply List.filter_congr
    intro r2 _
    simp [List.all_cons, Bool.and_comm]

/-- Folding `mark_superseded` over an id list retires exactly the rows
whose id appears in the list and leaves every other row unchanged. -/
theorem foldl_mark_superseded (ids : List String) (s : Store) (new_id now : String) :
    ids.foldl (fun st sid => mark_superseded now st sid new_id) s
      = s.map (fun r =>
          if r.id ∈ ids then { r with superseded_by := new_id, updated_at := now } else r) := by
  induction ids generalizing s with
  | nil => simp
  | cons i ids ih =>
    rw [List.foldl_cons, ih, mark_superseded, updateById, List.map_map]
    apply List.map_congr_left
    intro r _
    by_cases h1 : r.id = i
    · simp [Function.comp, h1]
    · by_cases h2 : r.id ∈ ids <;> simp [Function.comp, h1, h2]

/-- Membership characterisation of the type queries. -/
theorem mem_get_memories_by_types {s : Store} {u : String} {ts : List String} {r : Row} :
    r ∈ get_memories_by_types s u ts
      ↔ r ∈ s ∧ r.user_id = u
          ∧ (∃ t, r.metadata_json.type = some t ∧ t ∈ ts)
          ∧ r.superseded_by = "" := by
  rw [get_memories_by_types]
  by_cases hs : s.length = 0
  · rw [if_pos hs]
    have : s = [] := List.length_eq_zero.mp hs
    subst this
    simp
  · rw [if_neg hs, List.mem_insertionSort, List.mem_filter]
    constructor
    · rintro ⟨hr, hb⟩
      simp only [Bool.and_eq_true, beq_iff_eq] at hb
      obtain ⟨⟨hu, htype⟩, hsup⟩ := hb
      refine ⟨hr, hu, ?_, hsup⟩
      cases hmt : r.metadata_json.type with
      | none => rw [hmt] at htype; cases htype
      | some t =>
        rw [hmt] at htype
        exact ⟨t, rfl, by simpa using htype⟩
    · rintro ⟨hr, hu, ⟨t, hmt, hts⟩, hsup⟩
      refine ⟨hr, ?_⟩
      simp only [Bool.and_eq_true, beq_iff_eq]
      exact ⟨⟨hu, by rw [hmt]; simpa using hts⟩, hsup⟩

/-- A duplicate-id-free list whose elements all carry one fixed id has at
most one element. -/
theorem length_le_one_of_const_id {l : List Row} {c : String}
    (hn : (l.map Row.id).Nodup) (hc : ∀ r ∈ l, r.id = c) : l.length ≤ 1 := by
  cases l with
  | nil => simp
  | cons a t =>
    cases t with
    | nil => simp
    | cons b t2 =>
      exfalso
      have ha : a.id = c := hc a (by simp)
      have hb : b.id = c := hc b (by simp)
      simp only [List.map_cons, List.nodup_cons, List.mem_cons, List.mem_map] at hn
      exact hn.1 (Or.inl (by rw [ha, hb]))

-- ── Claim C1 ──

/-- C1: the claim states that when condensation of the oldest
session-summary fails, the aging pass does not delete the oldest row.
Counterexample: with three existing summaries, ingesting a fourth under a
condensation oracle that returns nothing still deletes the oldest row
`s1` from the store. -/
theorem C1_counterexample :
    (get_memories_by_type sC1 "u1" "session-summary").length = 3
    ∧ oC1.condense (summaryRow 1).memory = none
    ∧ (add_memory oC1 sC1 reqC1).results.map ResultEntry.event = [Event.ADD]
    ∧ summaryRow 1 ∈ sC1
    ∧ (add_memory oC1 sC1 reqC1).store.filter (fun r => r.id == "s1") = [] := by
  decide

/-- C1 (amended): when the live session-summary count exceeds the cap and
condensation of the oldest row fails, the aging pass deletes the oldest
row anyway — only the insertion of the condensed learned-pattern row is
skipped, so the resulting store is exactly the old store minus the oldest
row. -/
theorem C1_amended (o : Oracle) (fresh : String) (s : Store) (u : String)
    (oldest : Row) (rest : List Row)
    (hex : get_memories_by_type s u "session-summary" = oldest :: rest)
    (hlen : MAX_SESSION_SUMMARIES < (oldest :: rest).length)
    (hcond : o.condense oldest.memory = none) :
    age_session_summaries o fresh s u = deleteById s oldest.id := by
  rw [age_session_summaries, hex, if_neg (not_le.mpr hlen)]
  simp only [hcond]

/-- C1 (amended, witness): the concrete over-cap store loses its oldest
summary even though condensation fails. -/
theorem C1_amended_witness :
    age_session_summaries oC1 "f" sC1big "u1" = deleteById sC1big "s1" :=
  (C1_amended oC1 "f" sC1big "u1" (summaryRow 1)
      [summaryRow 2, summaryRow 3, summaryRow 4]
      (by decide) (by decide) (by decide)).trans (by decide)

-- ── Claim C2 ──

/-- C2: the claim states that ids returned by the supersession classifier
that are not in the candidate set are ignored and no other row is
modified.  Counterexample: the candidate set is exactly `[rowN1]`, the
classifier answers the non-candidate id `B`, and the row with id `B` gets
its `superseded_by` set to the new id. -/
theorem C2_counterexample :
    find_contradiction_candidates oDD sDD "u1" [1] "new-id" "preference"
        CONTRADICTION_CANDIDATE_LIMIT = [rowN1]
    ∧ rowN2.id = "B"
    ∧ rowN2 ∈ sDD
    ∧ rowN2.superseded_by = ""
    ∧ ((check_and_supersede oDD sDD "u1" "new mem" [1] "new-id" "preference").1.filter
          (fun r => r.id == "B")).map Row.superseded_by = ["new-id"] := by
  decide

/-- C2 (amended): the retirement step applies every id returned by the
classifier without checking it against the candidate set: each store row
whose id occurs in the returned list — candidate or not — gets
`superseded_by` set to the new id (and `updated_at` bumped), every other
row is unchanged, and returned ids matching no row are no-ops. -/
theorem C2_amended (o : Oracle) (s : Store) (user_id new_memory : String)
    (vector : List ℚ) (new_id memory_type : String)
    (hskip : memory_type ∉ VERSIONING_SKIP_TYPES)
    (hcand : find_contradiction_candidates o s user_id vector new_id memory_type
        CONTRADICTION_CANDIDATE_LIMIT ≠ []) :
    (check_and_supersede o s user_id new_memory vector new_id memory_type).1
      = s.map (fun r =>
          if r.id ∈ (check_and_supersede o s user_id new_memory vector new_id memory_type).2
          then { r with superseded_by := new_id, updated_at := o.now }
          else r) := by
  have hne : ¬ ((find_contradiction_candidates o s user_id vector new_id memory_type
      CONTRADICTION_CANDIDATE_LIMIT).isEmpty = true) := by
    simpa [List.isEmpty_iff] using hcand
  rw [check_and_supersede, if_neg hskip, if_neg hne]
  exact foldl_mark_superseded _ s new_id o.now

/-- C2 (amended, witness): concrete application where the classifier
returns the non-candidate id `B`. -/
theorem C2_amended_witness :
    (check_and_supersede oDD sDD "u1" "new mem" [1] "new-id" "preference").1
      = sDD.map (fun r =>
          if r.id ∈ (check_and_supersede oDD sDD "u1" "new mem" [1] "new-id" "preference").2
          then { r with superseded_by := "new-id", updated_at := oDD.now }
          else r) :=
  C2_amended oDD sDD "u1" "new mem" [1] "new-id" "preference" (by decide) (by decide)

-- ── Claim C3 ──

/-- C3: the claim states that the Versioner pass runs before the Ager
pass for each inserted fact.  Counterexample: the trace of a concrete
ingestion shows the Ager step strictly before the Versioner step. -/
theorem C3_counterexample :
    (add_memory oC3 [] reqC3).results.map ResultEntry.event = [Event.ADD]
    ∧ (add_memory oC3 [] reqC3).traces
        = [[Step.embed, Step.dedup, Step.insertRow, Step.ager, Step.versioner]]
    ∧ [Step.embed, Step.dedup, Step.insertRow, Step.ager,
        Step.versioner].indexOf Step.ager
        < [Step.embed, Step.dedup, Step.insertRow, Step.ager,
            Step.versioner].indexOf Step.versioner := by
  decide

/-- C3 (amended): for every inserted fact the per-fact pipeline executes
Embed, then Dedup, then Insert, then the Ager (when the fact's resolved
type is non-empty), and the Versioner last — i.e. the Ager pass precedes
the Versioner pass. -/
theorem C3_amended (o : Oracle) (user_id : String) (base : MetadataJson)
    (now : String) (s : Store) (n : Nat) (fact : Fact)
    (hadd : (processFact o user_id base now s n fact).entry.event = Event.ADD) :
    (processFact o user_id base now s n fact).steps
      = [Step.embed, Step.dedup, Step.insertRow]
        ++ (if resolveType fact.type base ≠ "" then [Step.ager] else [])
        ++ [Step.versioner] := by
  rw [processFact] at hadd ⊢
  cases h : find_duplicate o s user_id (o.embed fact.memory "document")
      (dedupThreshold (resolveType fact.type base)) with
  | some dup =>
    rw [h] at hadd
    exact Event.noConfusion hadd
  | none => rfl

/-- C3 (amended, witness): concrete ADD whose trace is exactly
Embed, Dedup, Insert, Ager, Versioner. -/
theorem C3_amended_witness :
    (processFact oC3 "u1" noMeta "T" [] 0 factC3).steps
      = [Step.embed, Step.dedup, Step.insertRow, Step.ager, Step.versioner] :=
  (C3_amended oC3 "u1" noMeta "T" [] 0 factC3 (by decide)).trans (by decide)

-- ── Claim C4 ──

/-- C4: the claim states that an ingestion request whose `user_id` fails
the charset regex is rejected with a client error.  Counterexample: with
`user_id = "u 1"` the endpoint answers HTTP 500 — a server error, not a
4xx client error — though the store is indeed untouched. -/
theorem C4_counterexample :
    validIdB "u 1" = false
    ∧ (add_memory oC3 sC1 reqC4).status = 500
    ∧ ¬(400 ≤ (add_memory oC3 sC1 reqC4).status
          ∧ (add_memory oC3 sC1 reqC4).status < 500)
    ∧ (add_memory oC3 sC1 reqC4).store = sC1
    ∧ (add_memory oC3 sC1 reqC4).results = [] := by
  decide

/-- C4 (amended): an ingestion request whose `user_id` fails the charset
regex is rejected — with HTTP 500, because the `validate_id` ValueError
is caught by the blanket exception handler — before any store access: the
store is returned unchanged and no results are produced. -/
theorem C4_amended (o : Oracle) (s : Store) (req : AddMemoryRequest)
    (h : validIdB req.user_id = false) :
    (add_memory o s req).status = 500
    ∧ (add_memory o s req).results = []
    ∧ (add_memory o s req).store = s := by
  rw [add_memory, if_pos h]
  exact ⟨rfl, rfl, rfl⟩

/-- C4 (amended, witness): concrete rejection of `user_id = "u 1"`. -/
theorem C4_amended_witness :
    (add_memory oC3 sC1 reqC4).status = 500
    ∧ (add_memory oC3 sC1 reqC4).results = []
    ∧ (add_memory oC3 sC1 reqC4).store = sC1 :=
  C4_amended oC3 sC1 reqC4 (by decide)

-- ── Claim C5 ──

/-- C5: `find_duplicate(user_id, vector, t)` runs a top-1 cosine
nearest-neighbour search restricted to rows of that user and returns the
match if and only if its distance is `≤ t` (part 1: any returned row is a
stored same-user row within `t` of minimal distance; part 2: `none` exactly
when no same-user row is within `t`); ingestion dedups with threshold
0.25 for structural types and 0.12 otherwise (part 4), taking the UPDATE
branch exactly on a match and the ADD branch on `none` (part 3). -/
theorem C5_dedup_spec :
    (∀ (o : Oracle) (s : Store) (u : String) (v : List ℚ) (t : ℚ) (r : Row),
        find_duplicate o s u v t = some r →
        r ∈ s ∧ r.user_id = u ∧ o.dist v r.vector ≤ t
          ∧ ∀ r2 ∈ s, r2.user_id = u → o.dist v r.vector ≤ o.dist v r2.vector)
    ∧ (∀ (o : Oracle) (s : Store) (u : String) (v : List ℚ) (t : ℚ),
        validIdB u = true →
        (find_duplicate o s u v t = none
          ↔ ∀ r ∈ s, r.user_id = u → t < o.dist v r.vector))
    ∧ (∀ (o : Oracle) (u : String) (base : MetadataJson) (now : String)
          (s : Store) (n : Nat) (fact : Fact),
        (processFact o u base now s n fact).entry.event = Event.UPDATE
          ↔ (find_duplicate o s u (o.embed fact.memory "document")
               (dedupThreshold (resolveType fact.type base))).isSome = true)
    ∧ (∀ ft : String,
        dedupThreshold ft = if ft ∈ STRUCTURAL_TYPES then 25/100 else 12/100) := by
  refine ⟨?_, ?_, ?_, ?_⟩
  · intro o s u v t r h
    by_cases hv : validIdB u = false
    · rw [find_duplicate, if_pos hv] at h; cases h
    · rw [find_duplicate, if_neg hv] at h
      by_cases hs : s.length = 0
      · rw [if_pos hs] at h; cases h
      · rw [if_neg hs] at h
        cases hsr : searchRows o s v (fun r => r.user_id == u) 1 with
        | nil => rw [hsr] at h; cases h
        | cons p rest =>
          obtain ⟨pr, pd⟩ := p
          rw [hsr] at h
          have h2 : (if pd ≤ t then some pr else none) = some r := h
          by_cases hd : pd ≤ t
          · rw [if_pos hd] at h2
            injection h2 with h2
            subst h2
            have hmem : ((pr, pd) : Row × ℚ) ∈ searchRows o s v (fun r => r.user_id == u) 1 := by
              rw [hsr]; exact List.mem_cons_self _ _
            obtain ⟨hrs, hpred, hdist⟩ := searchRows_mem hmem
            dsimp only at hrs hpred hdist
            refine ⟨hrs, by simpa using hpred, by rw [← hdist]; exact hd, ?_⟩
            intro r2 hr2 hr2u
            rw [← hdist]
            exact searchRows_head_min hsr r2 hr2 (by simpa using hr2u)
          · rw [if_neg hd] at h2; cases h2
  · intro o s u v t hval
    have hv : ¬ (validIdB u = false) := by simp [hval]
    constructor
    · intro hnone r hr hru
      rw [find_duplicate, if_neg hv] at hnone
      by_cases hs : s.length = 0
      · exact absurd hr (by simp [List.length_eq_zero.mp hs])
      · rw [if_neg hs] at hnone
        cases hsr : searchRows o s v (fun r => r.user_id == u) 1 with
        | nil =>
          have := searchRows_nil (by norm_num) hsr r hr
          simp [hru] at this
        | cons p rest =>
          obtain ⟨pr, pd⟩ := p
          rw [hsr] at hnone
          have h2 : (if pd ≤ t then some pr else none) = none := hnone
          by_cases hd : pd ≤ t
          · rw [if_pos hd] at h2; cases h2
          · have hmin := searchRows_head_min hsr r hr (by simpa using hru)
            exact lt_of_lt_of_le (not_le.mp hd) hmin
    · intro hall
      rw [find_duplicate, if_neg hv]
      by_cases hs : s.length = 0
      · rw [if_pos hs]
      · rw [if_neg hs]
        cases hsr : searchRows o s v (fun r => r.user_id == u) 1 with
        | nil => rfl
        | cons p rest =>
          obtain ⟨pr, pd⟩ := p
          have hmem : ((pr, pd) : Row × ℚ) ∈ searchRows o s v (fun r => r.user_id == u) 1 := by
            rw [hsr]; exact List.mem_cons_self _ _
          obtain ⟨hrs, hpred, hdist⟩ := searchRows_mem hmem
          dsimp only at hrs hpred hdist
          have hlt : t < pd := by
            rw [hdist]
            exact hall pr hrs (by simpa using hpred)
          show (if pd ≤ t then some pr else none) = none
          rw [if_neg (not_le.mpr hlt)]
  · intro o u base now s n fact
    rw [processFact]
    cases h : find_duplicate o s u (o.embed fact.memory "document")
        (dedupThreshold (resolveType fact.type base)) with
    | some dup => simp
    | none => simp
  · intro ft
    rw [dedupThreshold, STRUCTURAL_DEDUP_DISTANCE, DEDUP_DISTANCE]

/-- C5 (witness): on the concrete two-row store, the near row is returned
as the duplicate (and is a stored row), and with a threshold below every
distance the search answers `none`. -/
theorem C5_dedup_spec_witness :
    rowN1 ∈ sDD ∧ find_duplicate oDD sDD "u1" [5] (-1) = none :=
  ⟨(C5_dedup_spec.1 oDD sDD "u1" [1] DEDUP_DISTANCE rowN1 (by decide)).1,
   (C5_dedup_spec.2.1 oDD sDD "u1" [5] (-1) (by decide)).mpr (by decide)⟩

-- ── Claim C6 ──

/-- C6: when the Deduper finds a duplicate, the ingestion UPDATE
overwrites exactly `memory`, `updated_at`, `hash`, `metadata_json` and
`chunk` of the matched row (the record update `{r with ...}` keeps `id`,
`user_id`, `vector` and `created_at` — and `superseded_by`), leaves every
row with a different id untouched, creates no new row (the store length
is unchanged and every resulting row descends from a stored row with the
same identity fields), and reports the UPDATE event. -/
theorem C6_update_frame (o : Oracle) (u : String) (base : MetadataJson)
    (now : String) (s : Store) (n : Nat) (fact : Fact) (dup : Row)
    (hdup : find_duplicate o s u (o.embed fact.memory "document")
        (dedupThreshold (resolveType fact.type base)) = some dup) :
    (processFact o u base now s n fact).entry.event = Event.UPDATE
    ∧ (processFact o u base now s n fact).store.length = s.length
    ∧ (∀ r ∈ s, r.id ≠ dup.id → r ∈ (processFact o u base now s n fact).store)
    ∧ (∀ r ∈ s, r.id = dup.id →
        ({ r with
            memory := fact.memory
            updated_at := now
            hash := o.md5 fact.memory
            metadata_json := ingestMeta base (resolveType fact.type base)
            chunk := fact.chunk } : Row) ∈ (processFact o u base now s n fact).store)
    ∧ (∀ r2 ∈ (processFact o u base now s n fact).store, ∃ r ∈ s,
        r2.id = r.id ∧ r2.user_id = r.user_id ∧ r2.vector = r.vector
          ∧ r2.created_at = r.created_at ∧ r2.superseded_by = r.superseded_by) := by
  simp only [processFact, hdup]
  refine ⟨trivial, ?_, ?_, ?_, ?_⟩
  · exact List.length_map s _
  · intro r hr hne
    exact List.mem_map.mpr ⟨r, hr, by simp [updateById, hne]⟩
  · intro r hr heq
    exact List.mem_map.mpr ⟨r, hr, by simp [updateById, heq]⟩
  · intro r2 hr2
    rcases List.mem_map.mp hr2 with ⟨r, hr, himg⟩
    refine ⟨r, hr, ?_⟩
    by_cases hid : r.id = dup.id
    · rw [← himg]; simp [hid]
    · rw [← himg]; simp [hid]

/-- C6 (witness): concrete in-place UPDATE of the near row. -/
theorem C6_update_frame_witness :
    (processFact oDD "u1" noMeta "T1" sDD 0 factC6).entry.event = Event.UPDATE
    ∧ (processFact oDD "u1" noMeta "T1" sDD 0 factC6).store.length = sDD.length := by
  have h := C6_update_frame oDD "u1" noMeta "T1" sDD 0 factC6 rowN1 (by decide)
  exact ⟨h.1, h.2.1⟩

-- ── Claim C7 ──

/-- C7: for every search with `recency_weight w > 0`, each returned
item's score equals
`(1-w) * max(0, 1-distance) + w * expDecay((max_date - d).days)` where
`d` is the row's parsed session date, rows with unparseable dates get
recency 0, `max_date` is the maximum parseable date among the
candidates, and when no candidate has a parseable date the score falls
back to the pure semantic `max(0, 1-distance)`. -/
theorem C7_recency_scores (o : Oracle) (s : Store) (req : SearchMemoryRequest)
    (hw : 0 < req.recency_weight.getD 0) :
    ∀ item ∈ (search_memories o s req).results,
      ∃ p ∈ searchCandidates o s req,
        item.id = p.1.id
        ∧ item.score =
            (match candMaxDate (searchCandidates o s req) with
             | some maxd =>
                 (1 - req.recency_weight.getD 0) * max 0 (1 - p.2)
                 + req.recency_weight.getD 0 *
                     (match extract_date p.1 with
                      | some d => o.expDecay (maxd - d)
                      | none => 0)
             | none => max 0 (1 - p.2)) := by
  intro item hitem
  by_cases hv : validIdB req.user_id = false
  · rw [search_memories, if_pos hv] at hitem
    simp at hitem
  · rw [search_memories, if_neg hv] at hitem
    by_cases hs : s.length = 0
    · rw [if_pos hs] at hitem
      simp at hitem
    · rw [if_neg hs] at hitem
      have hitem2 : item ∈
          ((((searchCandidates o s req).map (fun p =>
              (p, blendScore o (req.recency_weight.getD 0)
                    (candMaxDate (searchCandidates o s req)) p))).filter
            (fun q => req.threshold.getD (3/10) ≤ q.2)).insertionSort scoreGE).map
            mkSearchItem := hitem
      rcases List.mem_map.mp hitem2 with ⟨q, hq, hitem_eq⟩
      have hq2 := (List.mem_insertionSort scoreGE).mp hq
      rcases List.mem_filter.mp hq2 with ⟨hq3, _⟩
      rcases List.mem_map.mp hq3 with ⟨p, hp, hpq⟩
      refine ⟨p, hp, ?_, ?_⟩
      · rw [← hitem_eq, ← hpq]
        rfl
      · rw [← hitem_eq, ← hpq]
        show blendScore o (req.recency_weight.getD 0)
            (candMaxDate (searchCandidates o s req)) p = _
        rw [blendScore.eq_def, if_pos hw]
        cases candMaxDate (searchCandidates o s req) with
        | some maxd => cases extract_date p.1 <;> rfl
        | none => rfl

/-- C7 (witness): under the concrete oracle the top result's score is
exactly the blended value `(1 - 1/2) * 0 + 1/2 * expDecay 0`. -/
theorem C7_recency_scores_witness :
    ∃ p ∈ searchCandidates oC1 sC1 reqC7,
      itemC7.id = p.1.id
      ∧ itemC7.score =
          (match candMaxDate (searchCandidates oC1 sC1 reqC7) with
           | some maxd =>
               (1 - reqC7.recency_weight.getD 0) * max 0 (1 - p.2)
               + reqC7.recency_weight.getD 0 *
                   (match extract_date p.1 with
                    | some d => oC1.expDecay (maxd - d)
                    | none => 0)
           | none => max 0 (1 - p.2)) :=
  C7_recency_scores oC1 sC1 reqC7 (by decide) itemC7 (by decide)

-- ── Claim C8 ──

/-- C8: after `apply_aging_rules` runs for a newly inserted live progress
row with id N for user U (in a store with unique ids), the new row
survives, no row is created (the result is a subset of the store), every
surviving live progress row of U is the new row, and exactly one live
progress row for U remains — invariant I5. -/
theorem C8_progress_aging (o : Oracle) (fresh : String) (s : Store)
    (u new_id : String) (rN : Row)
    (hmem : rN ∈ s) (hid : rN.id = new_id) (huser : rN.user_id = u)
    (htype : rN.metadata_json.type = some "progress")
    (hlive : rN.superseded_by = "")
    (hnodup : (s.map Row.id).Nodup) :
    rN ∈ apply_aging_rules o fresh s u "progress" new_id
    ∧ (∀ r ∈ apply_aging_rules o fresh s u "progress" new_id, r ∈ s)
    ∧ (∀ r ∈ apply_aging_rules o fresh s u "progress" new_id,
        r.user_id = u → r.metadata_json.type = some "progress" →
        r.superseded_by = "" → r.id = new_id)
    ∧ ((apply_aging_rules o fresh s u "progress" new_id).filter
        (fun r => r.user_id == u
          && r.metadata_json.type == some "progress"
          && r.superseded_by == "")).length = 1 := by
  have hkey : apply_aging_rules o fresh s u "progress" new_id
      = s.filter (fun r2 =>
          ((get_memories_by_type s u "progress").filter
            (fun r => r.id ≠ new_id)).all (fun q => decide (r2.id ≠ q.id))) := by
    rw [apply_aging_rules, if_neg (by decide : ¬ ("progress" : String) = ""),
      if_pos rfl]
    rw [age_progress, foldl_deleteById]
  have holds : ∀ q ∈ (get_memories_by_type s u "progress").filter
      (fun r => r.id ≠ new_id), q.id ≠ new_id ∧ q ∈ s ∧ q.user_id = u
        ∧ q.metadata_json.type = some "progress" ∧ q.superseded_by = "" := by
    intro q hq
    rcases List.mem_filter.mp hq with ⟨hq1, hq2⟩
    rcases mem_get_memories_by_types.mp hq1 with ⟨hqs, hqu, ⟨t, hqt, hts⟩, hqsup⟩
    rcases List.mem_singleton.mp hts
    exact ⟨of_decide_eq_true hq2, hqs, hqu, hqt, hqsup⟩
  have hNin : rN ∈ apply_aging_rules o fresh s u "progress" new_id := by
    rw [hkey]
    refine List.mem_filter.mpr ⟨hmem, List.all_eq_true.mpr ?_⟩
    intro q hq
    have := (holds q hq).1
    exact decide_eq_true (by rw [hid]; exact fun hh => this hh.symm)
  have hsub : ∀ r ∈ apply_aging_rules o fresh s u "progress" new_id, r ∈ s := by
    intro r hr
    rw [hkey] at hr
    exact (List.mem_filter.mp hr).1
  have honly : ∀ r ∈ apply_aging_rules o fresh s u "progress" new_id,
      r.user_id = u → r.metadata_json.type = some "progress" →
      r.superseded_by = "" → r.id = new_id := by
    intro r hr hru hrt hrl
    by_contra hne
    rw [hkey] at hr
    rcases List.mem_filter.mp hr with ⟨hrs, hall⟩
    have hrolds : r ∈ (get_memories_by_type s u "progress").filter
        (fun r => r.id ≠ new_id) := by
      refine List.mem_filter.mpr ⟨?_, decide_eq_true hne⟩
      exact mem_get_memories_by_types.mpr
        ⟨hrs, hru, ⟨"progress", hrt, List.mem_singleton.mpr rfl⟩, hrl⟩
    have := List.all_eq_true.mp hall r hrolds
    exact (of_decide_eq_true this) rfl
  refine ⟨hNin, hsub, honly, ?_⟩
  have hsubl : (apply_aging_rules o fresh s u "progress" new_id).Sublist s := by
    rw [hkey]; exact List.filter_sublist s
  have hnodup2 : ((apply_aging_rules o fresh s u "progress" new_id).filter
      (fun r => r.user_id == u && r.metadata_json.type == some "progress"
        && r.superseded_by == "")).map Row.id |>.Nodup := by
    refine List.Nodup.sublist (List.Sublist.map Row.id ?_) hnodup
    exact ((List.filter_sublist _).trans hsubl)
  have hconst : ∀ r ∈ (apply_aging_rules o fresh s u "progress" new_id).filter
      (fun r => r.user_id == u && r.metadata_json.type == some "progress"
        && r.superseded_by == ""), r.id = new_id := by
    intro r hr
    rcases List.mem_filter.mp hr with ⟨hr1, hr2⟩
    simp only [Bool.and_eq_true, beq_iff_eq] at hr2
    exact honly r hr1 hr2.1.1 hr2.1.2 hr2.2
  have hle := length_le_one_of_const_id hnodup2 hconst
  have hge : 0 < ((apply_aging_rules o fresh s u "progress" new_id).filter
      (fun r => r.user_id == u && r.metadata_json.type == some "progress"
        && r.superseded_by == "")).length := by
    refine List.length_pos.mpr (List.ne_nil_of_mem (List.mem_filter.mpr ⟨hNin, ?_⟩))
    simp [huser, htype, hlive]
  omega

/-- C8 (witness): on three live progress rows with the new row `p3`, the
new row survives and exactly one live progress row remains. -/
theorem C8_progress_aging_witness :
    progressRow 3 ∈ apply_aging_rules oC1 "f" sC8 "u1" "progress" "p3"
    ∧ ((apply_aging_rules oC1 "f" sC8 "u1" "progress" "p3").filter
        (fun r => r.user_id == "u1"
          && r.metadata_json.type == some "progress"
          && r.superseded_by == "")).length = 1 := by
  have h := C8_progress_aging oC1 "f" sC8 "u1" "p3" (progressRow 3)
    (by decide) (by decide) (by decide) (by decide) (by decide) (by decide)
  exact ⟨h.1, h.2.2.2⟩

-- ── Claim C9 ──

/-- C9: every item returned by the search endpoint comes from a stored
row of the requesting user with empty `superseded_by` — the vector search
is prefiltered to `user_id = <requester> AND superseded_by = ''`, so
retired rows are never returned. -/
theorem C9_search_excludes_superseded (o : Oracle) (s : Store)
    (req : SearchMemoryRequest) :
    ∀ item ∈ (search_memories o s req).results,
      ∃ r ∈ s, r.id = item.id ∧ r.memory = item.memory
        ∧ r.user_id = req.user_id ∧ r.superseded_by = "" := by
  intro item hitem
  by_cases hv : validIdB req.user_id = false
  · rw [search_memories, if_pos hv] at hitem
    simp at hitem
  · rw [search_memories, if_neg hv] at hitem
    by_cases hs : s.length = 0
    · rw [if_pos hs] at hitem
      simp at hitem
    · rw [if_neg hs] at hitem
      have hitem2 : item ∈
          ((((searchCandidates o s req).map (fun p =>
              (p, blendScore o (req.recency_weight.getD 0)
                    (candMaxDate (searchCandidates o s req)) p))).filter
            (fun q => req.threshold.getD (3/10) ≤ q.2)).insertionSort scoreGE).map
            mkSearchItem := hitem
      rcases List.mem_map.mp hitem2 with ⟨q, hq, hitem_eq⟩
      have hq2 := (List.mem_insertionSort scoreGE).mp hq
      rcases List.mem_filter.mp hq2 with ⟨hq3, _⟩
      rcases List.mem_map.mp hq3 with ⟨p, hp, hpq⟩
      obtain ⟨hps, hpred, _⟩ := searchRows_mem hp
      simp only [Bool.and_eq_true, beq_iff_eq] at hpred
      refine ⟨p.1, hps, ?_, ?_, hpred.1, hpred.2⟩
      · rw [← hitem_eq, ← hpq]
        rfl
      · rw [← hitem_eq, ← hpq]
        rfl

/-- C9 (witness): the concrete first search result descends from a live
stored row of the requester. -/
theorem C9_search_excludes_superseded_witness :
    ∃ r ∈ sC1, r.id = itemC9.id ∧ r.memory = itemC9.memory
      ∧ r.user_id = reqC9.user_id ∧ r.superseded_by = "" :=
  C9_search_excludes_superseded oC1 sC1 reqC9 itemC9 (by decide)

-- ── Claim C10 ──

/-- C10: `find_duplicate` filters only on `user_id` and does not exclude
retired rows: on a store whose only row is retired (`superseded_by =
"x9"`), the retired row is returned as the duplicate, ingestion takes the
UPDATE branch overwriting its `memory`, `hash`, `metadata_json` and
`chunk` while it stays retired, no new live row is inserted, and a
subsequent search returns nothing. -/
theorem C10_retired_row_update :
    rowR.superseded_by = "x9"
    ∧ rowR ∈ sC10
    ∧ find_duplicate oC10 sC10 "u1" (oC10.embed "new text" "document")
        DEDUP_DISTANCE = some rowR
    ∧ (add_memory oC10 sC10 reqC10).results
        = [{ id := "r1", memory := "new text", event := Event.UPDATE }]
    ∧ (add_memory oC10 sC10 reqC10).store.length = sC10.length
    ∧ (add_memory oC10 sC10 reqC10).store.map
        (fun r => (r.id, r.memory, r.hash, r.chunk, r.superseded_by))
        = [("r1", "new text", "h-new text", "ck", "x9")]
    ∧ (add_memory oC10 sC10 reqC10).store.map Row.metadata_json
        = [{ type := some "preference", date := none, condensed_from := none }]
    ∧ (search_memories oC10 (add_memory oC10 sC10 reqC10).store reqC10s).results
        = [] := by
  decide

end OCMem
